import Mathlib

/-!
Shallow embedding of `src/src/context.ts` from the `@wcom/context` repository
(`createContext`, provider/consumer bindings, `watch`, `derivedContext`).

Provider instances and element nodes are identified by natural numbers.
The per-context `WeakMap` store is embedded as an association list.
Code present in `src/src/context.ts` is translated directly; the helpers the
file imports from `utils.js` / `events.js` (`notEqual`, `fireEventAndRetry`,
the per-context event `validate` predicates) are not in `src/` and are
modelled from the spec where marked.
-/

namespace WcContext

/-- The per-context `WeakMap<Provider, T>` (`contextMap` in `createContext`),
embedded as an association list from provider ids to values. -/
abbrev Store (T : Type) : Type := List (Nat × T)

/-- Lookup of the entry for provider `p` (the raw association-list search). -/
def Store.findEntry {T : Type} (s : Store T) (p : Nat) : Option (Nat × T) :=
  List.find? (fun e => e.1 == p) s

/-- Membership test `contextMap.has(p)`. -/
def Store.has {T : Type} (s : Store T) (p : Nat) : Bool :=
  (Store.findEntry s p).isSome

/-- Lookup `contextMap.get(p)` (`none` when the key is absent). -/
def Store.getVal {T : Type} (s : Store T) (p : Nat) : Option T :=
  (Store.findEntry s p).map (fun e => e.2)

/-- Update `contextMap.set(p, v)`: overwrite-or-insert, one entry per key. -/
def Store.setVal {T : Type} (s : Store T) (p : Nat) (v : T) : Store T :=
  (p, v) :: List.filter (fun e => e.1 != p) s

/-- Removal `contextMap.delete(p)`. -/
def Store.deleteKey {T : Type} (s : Store T) (p : Nat) : Store T :=
  List.filter (fun e => e.1 != p) s

/-- Modelled from the spec: `notEqual` from the missing `utils.js`, the
"deep structural inequality" predicate of the Identity & Equality section. -/
def notEqual {T : Type} [DecidableEq T] (a b : T) : Bool :=
  a != b

/-- The provider property getter (`propertyDescriptor.get`, context.ts
lines 166-168): `contextMap.has(this) ? contextMap.get(this) : defaultValue`. -/
def propGet {T : Type} (defaultValue : T) (s : Store T) (p : Nat) : T :=
  if Store.has s p then (Store.getVal s p).getD defaultValue else defaultValue

/-- Result of one provider property assignment: the store afterwards and the
list of `ProviderUpdate` events dispatched (their `detail` payloads). -/
structure SetResult (T : Type) where
  store : Store T
  events : List T

/-- The provider property setter (`propertyDescriptor.set`, context.ts
lines 170-175): if `notEqual(newValue, this[contextPropertyName])` then store
the new value and dispatch a `ProviderUpdate(newValue)`, else do nothing. -/
def propSet {T : Type} [DecidableEq T] (defaultValue : T) (s : Store T)
    (p : Nat) (newValue : T) : SetResult T :=
  if notEqual newValue (propGet defaultValue s p) then
    { store := Store.setVal s p newValue, events := [newValue] }
  else
    { store := s, events := [] }

/-- The events dispatched by the two consecutive assignments
`set(P, v1); set(P, v2)` starting from store `s`. -/
def setTwiceEvents {T : Type} [DecidableEq T] (defaultValue : T) (s : Store T)
    (p : Nat) (v1 v2 : T) : List T :=
  let r1 := propSet defaultValue s p v1
  let r2 := propSet defaultValue r1.store p v2
  r1.events ++ r2.events

/-- Modelled from the spec: the per-context event classes of the missing
`events.js` discriminate by "a context-unique discriminator (e.g., a unique
token created per createContext call)", validated "by discriminator equality".
An event therefore carries its kind and the creating context's token `cid`;
`validate` on a context's event class is kind-match plus `cid` equality. -/
inductive Ev (T : Type) where
  | consumerConnect (cid : Nat) (consumerId : Nat)
  | consumerDisconnect (cid : Nat)
  | providerUpdate (cid : Nat) (detail : T)

/-- What one provider's `onConsumerConnect` handler (context.ts lines
114-145) did with an event: whether it claimed it (called
`stopImmediatePropagation`), whether it registered the consumer's
`onProviderUpdate` callback on itself, and the value it synchronously passed
to that callback (the payload of the `ContextProviderUpdateEvent` built from
`this[contextPropertyName]`). -/
structure ConnectOutcome (T : Type) where
  claimed : Bool
  registered : Bool
  syncedValue : Option T

/-- Handler `onConsumerConnect` for a provider of context `selfCid`, instance `pid`,
with store `s` and context default `defaultValue`: validate the event
(else return untouched), stop propagation, register the callback, and
immediately invoke it with the provider's current (or default) value. -/
def onConsumerConnect {T : Type} (selfCid pid : Nat) (defaultValue : T)
    (s : Store T) (ev : Ev T) : ConnectOutcome T :=
  match ev with
  | Ev.consumerConnect cid _ =>
    if cid == selfCid then
      { claimed := true, registered := true,
        syncedValue := some (propGet defaultValue s pid) }
    else
      { claimed := false, registered := false, syncedValue := none }
  | _ => { claimed := false, registered := false, syncedValue := none }

/-- A provider element on the bubbling path of a consumer's connect event:
its instance id, the context token of the context it provides, its store and
that context's default. -/
structure ProviderNode (T : Type) where
  pid : Nat
  cid : Nat
  defaultValue : T
  store : Store T

/-- Bubbling dispatch of an event along the path of ancestor providers,
innermost (nearest the consumer) first: each handler runs in order and
`stopImmediatePropagation` (a claimed outcome) halts the walk. Returns the
outcomes of the handlers that actually ran. -/
def dispatchPath {T : Type} (ev : Ev T) :
    List (ProviderNode T) → List (Nat × ConnectOutcome T)
  | [] => []
  | n :: rest =>
    let o := onConsumerConnect n.cid n.pid n.defaultValue n.store ev
    if o.claimed then [(n.pid, o)] else (n.pid, o) :: dispatchPath ev rest

/-- The providers that registered the consumer's callback during a dispatch. -/
def registeredPids {T : Type} (outs : List (Nat × ConnectOutcome T)) :
    List Nat :=
  (outs.filter (fun x => x.2.registered)).map (fun x => x.1)

/-- The nearest provider of context `cid` on the path (innermost first). -/
def nearestProvider {T : Type} (cid : Nat) (path : List (ProviderNode T)) :
    Option (ProviderNode T) :=
  path.find? (fun n => n.cid == cid)

/-- The consumer's `onProviderUpdate` callback (context.ts lines 223-229):
validate the event (else return, leaving the bound property alone), then
assign `transform(event.detail)` to the consumer's bound property. -/
def consumerOnProviderUpdate {T U : Type} (selfCid : Nat) (transform : T → U)
    (slot : U) (ev : Ev T) : U :=
  match ev with
  | Ev.providerUpdate cid d => if cid == selfCid then transform d else slot
  | _ => slot

/-- The provider's `onDisconnectFromProvider` callback (context.ts lines
128-135): validate the event (else return), then remove the registered
`onProviderUpdate` callback `cb` from the provider's update listeners. -/
def onDisconnectFromProvider {T : Type} (selfCid : Nat) (listeners : List Nat)
    (cb : Nat) (ev : Ev T) : List Nat :=
  match ev with
  | Ev.consumerDisconnect cid =>
    if cid == selfCid then listeners.erase cb else listeners
  | _ => listeners

/-- The `handleUpdate` listener of `watch` (context.ts lines 271-274): validate
the event, else return without calling `handle`; result is the value the
handler was called with, if any. -/
def watchHandleUpdate {T : Type} (selfCid : Nat) (ev : Ev T) : Option T :=
  match ev with
  | Ev.providerUpdate cid d => if cid == selfCid then some d else none
  | _ => none

/-- The slice of a provider instance's state touched by its lifecycle
callbacks: the ids of `ConsumerConnect` listeners installed on the element,
and the context store. -/
structure ProviderBindingState (T : Type) where
  connectListeners : List Nat
  store : Store T

/-- Lifecycle hook `providerProto.connectedCallback` (context.ts lines 147-150): install the
`onConsumerConnect` listener (id `hid`). -/
def providerConnectedCallback {T : Type} (hid : Nat)
    (st : ProviderBindingState T) : ProviderBindingState T :=
  { st with connectListeners := st.connectListeners ++ [hid] }

/-- Lifecycle hook `providerProto.disconnectedCallback` (context.ts lines 152-162): remove
the `onConsumerConnect` listener (id `hid`) and delete this provider's
(`pid`) store entry. -/
def providerDisconnectedCallback {T : Type} (hid pid : Nat)
    (st : ProviderBindingState T) : ProviderBindingState T :=
  { connectListeners := st.connectListeners.erase hid,
    store := Store.deleteKey st.store pid }

/-- Modelled from the spec: the cancellable state of `fireEventAndRetry`
(missing `utils.js`, the "Retry-Until-Found Dispatcher"): after `start()`,
discovery retries (further dispatches and possible `onCouldNotFindProvider`
calls) remain pending until `stop()` is called. -/
structure RetryDispatcher where
  stopped : Bool

/-- The consumer-binding state of one attach cycle: the retry dispatcher
created in `onConnectToProvider` and whether a provider has claimed the
connect event. -/
structure ConsumerState where
  dispatcher : RetryDispatcher
  paired : Bool

/-- Setup `onConnectToProvider` run from `consumerProto.connectedCallback`
(context.ts lines 197-254): build the connect event, create the dispatcher
via `fireEventAndRetry`, and `start()` it. -/
def consumerConnectedCallback : ConsumerState :=
  { dispatcher := { stopped := false }, paired := false }

/-- The `detail.onConnectToProvider` callback (context.ts lines 203-220),
run when a provider claims the connect event: `stopLookingForProvider()`
(the dispatcher's `stop`) and the disconnect listener is installed. -/
def consumerOnClaimed (_s : ConsumerState) : ConsumerState :=
  { dispatcher := { stopped := true }, paired := true }

/-- Lifecycle hook `consumerProto.disconnectedCallback` (context.ts lines 257-260): dispatch
a `ContextConsumerDisconnectEvent` and chain the original callback. It never
touches the retry dispatcher — `stop` is only wired into
`detail.onConnectToProvider`. -/
def consumerDisconnectedCallback (s : ConsumerState) : ConsumerState :=
  s

/-- A further discovery retry (re-dispatch / `onCouldNotFindProvider`) can
still fire. -/
def retryPending (s : ConsumerState) : Bool :=
  !s.dispatcher.stopped

/-- Outcome of `context.watch(el, handle)` (context.ts lines 264-280): the
values `handle` is synchronously called with at subscription time, the
element's update listeners after subscribing (the fresh `handleUpdate`
closure has id `hid`), and those listeners after the returned unsubscribe
function runs. -/
structure WatchOutcome (T : Type) where
  immediateCalls : List T
  listenersAfter : List Nat
  listenersAfterUnsub : List Nat

/-- Subscription `context.watch` (context.ts lines 264-280): call `handle` once with
`contextMap.has(el) ? contextMap.get(el)! : defaultValue`, add the
`handleUpdate` listener, and return an unsubscribe that removes it. -/
def contextWatch {T : Type} (defaultValue : T) (s : Store T) (el : Nat)
    (listeners : List Nat) (hid : Nat) : WatchOutcome T :=
  { immediateCalls :=
      [if Store.has s el then (Store.getVal s el).getD defaultValue
       else defaultValue],
    listenersAfter := listeners ++ [hid],
    listenersAfterUnsub := (listeners ++ [hid]).erase hid }

/-- An upstream context as consumed by `derivedContext`: only its
`defaultValue` matters for deriving the default. -/
structure Ctx (T : Type) where
  defaultValue : T

/-- The derived default (context.ts lines 29-31):
`derivation(...contexts.map((c) => c.defaultValue))`. The JS derivation
receives the `values` array whose holes are `undefined`, embedded as
`Option`; at creation time every upstream default is present. -/
def derivedDefaultValue {T R : Type} (contexts : List (Ctx T))
    (derivation : List (Option T) → R) : R :=
  derivation (contexts.map (fun c => some c.defaultValue))

/-- The closure state captured once per decorated component type inside
`provideDerivedContext` (context.ts lines 42-44): `ready`, the upstream
`values` slots (a JS sparse array — holes are `none`), and the `dispose`
list of watch-unsubscribe functions (as tokens). -/
structure DerivedClosure (T : Type) where
  ready : Bool
  values : List (Option T)
  dispose : List Nat

/-- An attached component instance seen by the derived binding: the (shared)
closure state plus the instance's own bound property `this[key]`. -/
structure DerivedInstance (T R : Type) where
  closure : DerivedClosure T
  slot : R

/-- JS sparse-array assignment `values[i] = v`, extending with holes. -/
def setSlot {T : Type} : List (Option T) → Nat → T → List (Option T)
  | [], 0, v => [some v]
  | [], n + 1, v => none :: setSlot [] n v
  | _ :: xs, 0, v => some v :: xs
  | x :: xs, n + 1, v => x :: setSlot xs n v

/-- Function `sync` (context.ts lines 46-48): `this[key] = derivation(...values)`. -/
def derivedSync {T R : Type} (derivation : List (Option T) → R)
    (st : DerivedInstance T R) : DerivedInstance T R :=
  { st with slot := derivation st.closure.values }

/-- The watch callback for upstream `i` (context.ts lines 52-55):
`values[i] = newValue; if (ready) sync.call(this)`. -/
def derivedWatchCallback {T R : Type} (derivation : List (Option T) → R)
    (i : Nat) (v : T) (st : DerivedInstance T R) : DerivedInstance T R :=
  let st1 : DerivedInstance T R :=
    { st with closure :=
        { st.closure with values := setSlot st.closure.values i v } }
  if st1.closure.ready then derivedSync derivation st1 else st1

/-- One iteration of the `contexts.forEach` loop in the derived
`connectedCallback` (context.ts lines 51-58): `context.watch` immediately
invokes the callback with the upstream's current value `v`, then the
returned stop function is pushed onto `dispose`. -/
def derivedConnectStep {T R : Type} (derivation : List (Option T) → R)
    (i : Nat) (v : T) (st : DerivedInstance T R) : DerivedInstance T R :=
  let st1 := derivedWatchCallback derivation i v st
  { st1 with closure :=
      { st1.closure with
        dispose := st1.closure.dispose ++ [st1.closure.dispose.length] } }

/-- The `contexts.forEach` loop, upstream `i` onwards, with the synchronous
initial values `vs` the upstream watches deliver. -/
def derivedFold {T R : Type} (derivation : List (Option T) → R) :
    List T → Nat → DerivedInstance T R → DerivedInstance T R
  | [], _, st => st
  | v :: vs, i, st =>
    derivedFold derivation vs (i + 1) (derivedConnectStep derivation i v st)

/-- The derived `proto.connectedCallback` (context.ts lines 50-64): run the
forEach loop over the upstreams (initial values `initials`), set
`ready = true`, and `sync`. -/
def derivedConnectedCallback {T R : Type} (derivation : List (Option T) → R)
    (initials : List T) (st : DerivedInstance T R) : DerivedInstance T R :=
  let st1 := derivedFold derivation initials 0 st
  let st2 : DerivedInstance T R :=
    { st1 with closure := { st1.closure with ready := true } }
  derivedSync derivation st2

/-- The derived `proto.disconnectedCallback` (context.ts lines 66-70):
`ready = false; dispose.forEach((fn) => fn())` — the stop functions run but
the `dispose` list (and the `values` slots) are never cleared. -/
def derivedDisconnectedCallback {T R : Type} (st : DerivedInstance T R) :
    DerivedInstance T R :=
  { st with closure := { st.closure with ready := false } }

/-- A JS-style value for the spec's derived-context example (string, number
or `undefined`). -/
inductive JVal where
  | s (v : String)
  | n (v : Nat)
  | undef
  deriving DecidableEq, Repr

/-- The example derivation `(a, b) => a + b` of the spec, with JS
string-number concatenation semantics. -/
def derivationEx : List (Option JVal) → JVal
  | [some (JVal.s a), some (JVal.n b)] => JVal.s (a ++ toString b)
  | _ => JVal.undef

-- Lemmas and claim theorems ------------------------------------------

theorem Store.findEntry_setVal_self {T : Type} (s : Store T) (p : Nat) (v : T) :
    Store.findEntry (Store.setVal s p v) p = some (p, v) := by
  simp [Store.findEntry, Store.setVal, List.find?]

theorem Store.getVal_setVal_self {T : Type} (s : Store T) (p : Nat) (v : T) :
    Store.getVal (Store.setVal s p v) p = some v := by
  simp [Store.getVal, Store.findEntry_setVal_self]

theorem Store.has_setVal_self {T : Type} (s : Store T) (p : Nat) (v : T) :
    Store.has (Store.setVal s p v) p = true := by
  simp [Store.has, Store.findEntry_setVal_self]

theorem propGet_setVal_self {T : Type} (defaultValue : T) (s : Store T)
    (p : Nat) (v : T) :
    propGet defaultValue (Store.setVal s p v) p = v := by
  simp [propGet, Store.has_setVal_self, Store.getVal_setVal_self]

theorem Store.findEntry_filter_ne {T : Type} (s : Store T) (p : Nat) :
    Store.findEntry (List.filter (fun e => e.1 != p) s) p = none := by
  rw [Store.findEntry, List.find?_eq_none]
  intro x hx
  have hmem := List.of_mem_filter hx
  simp at hmem ⊢
  exact hmem

theorem Store.findEntry_filter_other {T : Type} (s : Store T) (p q : Nat)
    (h : q ≠ p) :
    Store.findEntry (List.filter (fun e => e.1 != p) s) q =
      Store.findEntry s q := by
  induction s with
  | nil => rfl
  | cons hd tl ih =>
    simp only [Store.findEntry] at ih ⊢
    rw [List.filter_cons]
    by_cases hp : hd.1 = p
    · rw [if_neg (by simp [hp])]
      rw [List.find?_cons_of_neg _ (by simp [hp]; exact fun e => h e.symm)]
      exact ih
    · rw [if_pos (by simp [hp])]
      by_cases hq : hd.1 = q
      · rw [List.find?_cons_of_pos _ (by simp [hq]),
          List.find?_cons_of_pos _ (by simp [hq])]
      · rw [List.find?_cons_of_neg _ (by simp [hq]),
          List.find?_cons_of_neg _ (by simp [hq])]
        exact ih

/-- C1 (counterexample): the claim "set(P, v1) then set(P, v2) with
equal(v1, v2) dispatches exactly one ProviderUpdate" fails when v1 already
equals the provider's current (here default) value: with default 0 and an
empty store, set(P, 0); set(P, 0) dispatches zero events, not one. -/
theorem set_twice_equal_not_exactly_one :
    ¬ (setTwiceEvents (0 : Nat) [] 1 0 0).length = 1 := by
  decide

/-- C1 (amended): for equal v1, v2, set(P, v1); set(P, v2) dispatches at most
one ProviderUpdate event; exactly one, carrying v1 and storing it, when v1 is
unequal to the provider's current (or default) value; and none at all — with
the store left untouched — when v1 equals the current value. -/
theorem set_twice_equal_at_most_one {T : Type} [DecidableEq T]
    (defaultValue : T) (s : Store T) (p : Nat) (v1 v2 : T) (heq : v1 = v2) :
    (setTwiceEvents defaultValue s p v1 v2).length ≤ 1
    ∧ (v1 ≠ propGet defaultValue s p →
        setTwiceEvents defaultValue s p v1 v2 = [v1]
        ∧ Store.getVal
            (propSet defaultValue (propSet defaultValue s p v1).store p v2).store
            p = some v1)
    ∧ (v1 = propGet defaultValue s p →
        setTwiceEvents defaultValue s p v1 v2 = []
        ∧ (propSet defaultValue (propSet defaultValue s p v1).store p v2).store
            = s) := by
  subst heq
  by_cases h1 : v1 = propGet defaultValue s p
  · have hr1 : propSet defaultValue s p v1 = { store := s, events := [] } := by
      simp [propSet, notEqual, h1]
    refine ⟨?_, fun hne => absurd h1 hne, fun _ => ?_⟩
    · simp [setTwiceEvents, hr1, propSet, notEqual, h1]
    · simp [setTwiceEvents, hr1, propSet, notEqual, h1]
  · have hr1 : propSet defaultValue s p v1 =
        { store := Store.setVal s p v1, events := [v1] } := by
      simp [propSet, notEqual, h1]
    have hget : propGet defaultValue (Store.setVal s p v1) p = v1 :=
      propGet_setVal_self defaultValue s p v1
    have hr2 : propSet defaultValue (Store.setVal s p v1) p v1 =
        { store := Store.setVal s p v1, events := [] } := by
      simp [propSet, notEqual, hget]
    refine ⟨?_, fun _ => ⟨?_, ?_⟩, fun hcon => absurd hcon h1⟩
    · simp [setTwiceEvents, hr1, hr2]
    · simp [setTwiceEvents, hr1, hr2]
    · rw [hr1]
      simp only [hr2]
      exact Store.getVal_setVal_self s p v1

/-- C1 (witness): a concrete run of the amended theorem. -/
theorem set_twice_equal_at_most_one_witness :
    (setTwiceEvents (0 : Nat) [] 1 5 5).length ≤ 1 :=
  (set_twice_equal_at_most_one 0 [] 1 5 5 rfl).1

/-- C2: get(provider) returns the value stored for that provider when an
entry exists and the context's defaultValue when none does; it is a pure
function (total, store unchanged). -/
theorem propGet_spec {T : Type} (defaultValue : T) (s : Store T) (p : Nat) :
    (∀ v, Store.getVal s p = some v → propGet defaultValue s p = v)
    ∧ (Store.getVal s p = none → propGet defaultValue s p = defaultValue) := by
  cases hfind : Store.findEntry s p with
  | none =>
    constructor
    · intro v hv
      simp [Store.getVal, hfind] at hv
    · intro _
      simp [propGet, Store.has, Store.getVal, hfind]
  | some e =>
    constructor
    · intro v hv
      simp only [Store.getVal, hfind, Option.map_some'] at hv
      simp [propGet, Store.has, Store.getVal, hfind, ← Option.some_inj.mp hv]
    · intro hnone
      simp [Store.getVal, hfind] at hnone

/-- C2 (witness): concrete stored-entry and absent-entry reads. -/
theorem propGet_spec_witness :
    propGet (0 : Nat) [(1, 5)] 1 = 5 ∧ propGet (0 : Nat) [] 2 = 0 :=
  ⟨(propGet_spec 0 [(1, 5)] 1).1 5 rfl, (propGet_spec 0 [] 2).2 rfl⟩

theorem registeredPids_dispatch {T : Type} (cid k : Nat)
    (path : List (ProviderNode T)) :
    registeredPids (dispatchPath (Ev.consumerConnect cid k) path)
      = ((nearestProvider cid path).map (fun n => n.pid)).toList := by
  induction path with
  | nil => rfl
  | cons n rest ih =>
    by_cases hc : n.cid = cid
    · simp [dispatchPath, onConsumerConnect, hc, registeredPids,
        nearestProvider]
    · have hb : (cid == n.cid) = false := by
        simp
        exact fun e => hc e.symm
      have hb2 : (n.cid == cid) = false := by
        simp [hc]
      simpa [dispatchPath, onConsumerConnect, hb, hb2, registeredPids,
        nearestProvider, List.filter_cons] using ih

theorem dispatchPath_claimed_eq_registered {T : Type} (cid k : Nat)
    (path : List (ProviderNode T)) :
    ∀ x ∈ dispatchPath (Ev.consumerConnect cid k) path,
      x.2.claimed = x.2.registered := by
  induction path with
  | nil => intro x hx; simp [dispatchPath] at hx
  | cons n rest ih =>
    intro x hx
    by_cases hc : n.cid = cid
    · simp [dispatchPath, onConsumerConnect, hc] at hx
      simp [hx]
    · have hb : (cid == n.cid) = false := by
        simp
        exact fun e => hc e.symm
      simp [dispatchPath, onConsumerConnect, hb] at hx
      rcases hx with hx | hx
      · simp [hx]
      · exact ih x hx

/-- C3: dispatching a ConsumerConnect event along the bubbling path of
ancestor providers (innermost first), at most one provider registers the
consumer's callback; the registering provider is exactly the nearest
ancestor providing that context (none if no ancestor does); and every
handler that registered also claimed the event (stopped its propagation). -/
theorem consumerConnect_nearest_claims {T : Type} (cid k : Nat)
    (path : List (ProviderNode T)) :
    (registeredPids (dispatchPath (Ev.consumerConnect cid k) path)).length ≤ 1
    ∧ registeredPids (dispatchPath (Ev.consumerConnect cid k) path)
        = ((nearestProvider cid path).map (fun n => n.pid)).toList
    ∧ ∀ x ∈ dispatchPath (Ev.consumerConnect cid k) path,
        x.2.claimed = x.2.registered := by
  have h := registeredPids_dispatch cid k path
  refine ⟨?_, h, dispatchPath_claimed_eq_registered cid k path⟩
  rw [h]
  cases nearestProvider cid path <;> simp

/-- C3 (witness): a concrete path where the inner of two providers of the
same context claims the event and the outer never registers. -/
theorem consumerConnect_nearest_claims_witness :
    registeredPids (dispatchPath (Ev.consumerConnect 3 9)
        [⟨10, 7, (0 : Nat), []⟩, ⟨11, 3, 0, []⟩, ⟨12, 3, 0, []⟩]) = [11] := by
  have h := consumerConnect_nearest_claims (T := Nat) 3 9
    [⟨10, 7, 0, []⟩, ⟨11, 3, 0, []⟩, ⟨12, 3, 0, []⟩]
  rw [h.2.1]
  rfl

theorem propGet_of_getVal_none {T : Type} (defaultValue : T) (s : Store T)
    (p : Nat) (h : Store.getVal s p = none) :
    propGet defaultValue s p = defaultValue := by
  have hfe : Store.findEntry s p = none := by
    cases hfind : Store.findEntry s p with
    | none => rfl
    | some e =>
      rw [Store.getVal, hfind] at h
      simp at h
  simp [propGet, Store.has, hfe]

/-- C4: a provider claiming a ConsumerConnect event of its own context
synchronously (as part of the handler's outcome) invokes the consumer's
update callback with the provider's current value `propGet`, which is the
context default when the provider has no store entry. -/
theorem consumerConnect_syncs_current_value {T : Type} (selfCid pid k : Nat)
    (defaultValue : T) (s : Store T) :
    onConsumerConnect selfCid pid defaultValue s (Ev.consumerConnect selfCid k)
      = { claimed := true, registered := true,
          syncedValue := some (propGet defaultValue s pid) }
    ∧ (Store.getVal s pid = none →
        (onConsumerConnect selfCid pid defaultValue s
            (Ev.consumerConnect selfCid k)).syncedValue
          = some defaultValue) := by
  constructor
  · simp [onConsumerConnect]
  · intro hnone
    simp [onConsumerConnect, propGet_of_getVal_none defaultValue s pid hnone]

/-- C4 (witness): a provider with no store entry syncs the default value. -/
theorem consumerConnect_syncs_current_value_witness :
    (onConsumerConnect 0 1 (7 : Nat) [] (Ev.consumerConnect 0 2)).syncedValue
      = some 7 :=
  (consumerConnect_syncs_current_value 0 1 2 7 []).2 rfl

/-- C5: every listener installed by a context (connect handler, consumer
update handler, disconnect handler, watch handler) silently ignores a
structurally identical event carrying a different context's discriminator:
nothing is claimed or registered, no callback removed, the consumer's bound
property keeps its value, and the watch handler is never called. -/
theorem cross_context_events_ignored {T U : Type} (cid1 cid2 : Nat)
    (h : cid1 ≠ cid2) (pid k : Nat) (defaultValue : T) (s : Store T)
    (transform : T → U) (slot : U) (d : T) (listeners : List Nat) (cb : Nat) :
    onConsumerConnect cid1 pid defaultValue s (Ev.consumerConnect cid2 k)
      = { claimed := false, registered := false, syncedValue := none }
    ∧ consumerOnProviderUpdate cid1 transform slot (Ev.providerUpdate cid2 d)
        = slot
    ∧ onDisconnectFromProvider (T := T) cid1 listeners cb
        (Ev.consumerDisconnect cid2) = listeners
    ∧ watchHandleUpdate cid1 (Ev.providerUpdate cid2 d) = none := by
  have hb : (cid2 == cid1) = false := by
    simp
    exact fun e => h e.symm
  refine ⟨?_, ?_, ?_, ?_⟩ <;>
    simp [onConsumerConnect, consumerOnProviderUpdate,
      onDisconnectFromProvider, watchHandleUpdate, hb]

/-- C5 (witness): concrete mismatched events are ignored by every listener. -/
theorem cross_context_events_ignored_witness :
    consumerOnProviderUpdate 0 (fun v : Nat => v) 5 (Ev.providerUpdate 1 9) = 5
    ∧ watchHandleUpdate 0 (Ev.providerUpdate 1 (9 : Nat)) = none :=
  ⟨(cross_context_events_ignored 0 1 (by decide) 2 3 0 []
      (fun v : Nat => v) 5 9 [] 0).2.1,
   (cross_context_events_ignored 0 1 (by decide) 2 3 0 []
      (fun v : Nat => v) 5 9 [] 0).2.2.2⟩

/-- C6: a provider's disconnectedCallback removes the ConsumerConnect
listener and deletes exactly its own store entry: afterwards the detached
provider has no entry and reads the context default, while every other
provider's entry is unchanged. -/
theorem provider_disconnect_spec {T : Type} (hid pid : Nat)
    (st : ProviderBindingState T) (defaultValue : T) :
    (providerDisconnectedCallback hid pid st).connectListeners
        = st.connectListeners.erase hid
    ∧ Store.getVal (providerDisconnectedCallback hid pid st).store pid = none
    ∧ (∀ q, q ≠ pid →
        Store.getVal (providerDisconnectedCallback hid pid st).store q
          = Store.getVal st.store q)
    ∧ propGet defaultValue (providerDisconnectedCallback hid pid st).store pid
        = defaultValue := by
  refine ⟨rfl, ?_, ?_, ?_⟩
  · simp [providerDisconnectedCallback, Store.getVal, Store.deleteKey,
      Store.findEntry_filter_ne]
  · intro q hq
    simp [providerDisconnectedCallback, Store.getVal, Store.deleteKey,
      Store.findEntry_filter_other st.store pid q hq]
  · apply propGet_of_getVal_none
    simp [providerDisconnectedCallback, Store.getVal, Store.deleteKey,
      Store.findEntry_filter_ne]

/-- C6 (witness): detaching provider 1 deletes its entry, leaves provider 2's
entry intact, and its subsequent reads fall back to the default. -/
theorem provider_disconnect_spec_witness :
    Store.getVal
        (providerDisconnectedCallback 7 1 ⟨[7], [(1, 5), (2, 6)]⟩).store 2
      = some (6 : Nat) :=
  (provider_disconnect_spec 7 1 ⟨[7], [(1, 5), (2, 6)]⟩ 0).2.2.1 2 (by decide)

/-- C7 (counterexample): a consumer that attaches, is never claimed by any
provider, and then detaches still has a pending discovery retry — its
disconnectedCallback does not call the dispatcher's stop(), refuting the
claim that detach cancels all pending retries. -/
theorem consumer_detach_leaves_retry_pending :
    retryPending (consumerDisconnectedCallback consumerConnectedCallback)
      = true := by
  decide

/-- C7 (amended): the dispatcher's stop() is invoked only when a provider
claims the connect event — after a claim no retry is pending — while the
consumer's disconnectedCallback leaves the consumer-binding state (and hence
any pending discovery retries) untouched. -/
theorem consumer_stop_only_on_claim (s : ConsumerState) :
    retryPending (consumerOnClaimed s) = false
    ∧ consumerDisconnectedCallback s = s := by
  exact ⟨rfl, rfl⟩

theorem propGet_of_getVal_some {T : Type} (defaultValue : T) (s : Store T)
    (p : Nat) (v : T) (h : Store.getVal s p = some v) :
    propGet defaultValue s p = v := by
  cases hfind : Store.findEntry s p with
  | none =>
    rw [Store.getVal, hfind] at h
    simp at h
  | some e =>
    rw [Store.getVal, hfind] at h
    simp only [Option.map_some'] at h
    simp [propGet, Store.has, Store.getVal, hfind, ← Option.some_inj.mp h]

/-- C9: watch synchronously invokes the handler exactly once at subscription
time — with the stored value when the element has an entry, the context
default when not — before its listener is even installed; and the returned
unsubscribe removes exactly the added listener, so the handler receives no
further updates. -/
theorem watch_spec {T : Type} (defaultValue : T) (s : Store T) (el : Nat)
    (listeners : List Nat) (hid : Nat) (h : hid ∉ listeners) :
    (contextWatch defaultValue s el listeners hid).immediateCalls.length = 1
    ∧ (∀ v, Store.getVal s el = some v →
        (contextWatch defaultValue s el listeners hid).immediateCalls = [v])
    ∧ (Store.getVal s el = none →
        (contextWatch defaultValue s el listeners hid).immediateCalls
          = [defaultValue])
    ∧ (contextWatch defaultValue s el listeners hid).listenersAfter
        = listeners ++ [hid]
    ∧ (contextWatch defaultValue s el listeners hid).listenersAfterUnsub
        = listeners := by
  have himm : (contextWatch defaultValue s el listeners hid).immediateCalls
      = [propGet defaultValue s el] := by
    simp [contextWatch, propGet]
  refine ⟨?_, ?_, ?_, rfl, ?_⟩
  · rw [himm]
    rfl
  · intro v hv
    rw [himm, propGet_of_getVal_some defaultValue s el v hv]
  · intro hnone
    rw [himm, propGet_of_getVal_none defaultValue s el hnone]
  · simp [contextWatch, List.erase_append_right _ h, List.erase_cons_head]

/-- C9 (witness): a concrete watch on an element with a stored entry. -/
theorem watch_spec_witness :
    (contextWatch (0 : Nat) [(4, 9)] 4 [1, 2] 3).immediateCalls = [9]
    ∧ (contextWatch (0 : Nat) [(4, 9)] 4 [1, 2] 3).listenersAfterUnsub
        = [1, 2] :=
  ⟨(watch_spec 0 [(4, 9)] 4 [1, 2] 3 (by decide)).2.1 9 rfl,
   (watch_spec 0 [(4, 9)] 4 [1, 2] 3 (by decide)).2.2.2.2⟩

theorem setSlot_at_length {T : Type} (xs : List (Option T)) (v : T) :
    setSlot xs xs.length v = xs ++ [some v] := by
  induction xs with
  | nil => rfl
  | cons x xs ih => simp [setSlot, List.length_cons, ih]

theorem derivedFold_start_at_length {T R : Type}
    (derivation : List (Option T) → R) :
    ∀ (vs : List T) (i : Nat) (st : DerivedInstance T R),
      st.closure.ready = false →
      i = st.closure.values.length →
      (derivedFold derivation vs i st).closure.values
          = st.closure.values ++ vs.map some
      ∧ (derivedFold derivation vs i st).closure.ready = false := by
  intro vs
  induction vs with
  | nil =>
    intro i st hready hi
    simp [derivedFold]
    exact hready
  | cons v vs ih =>
    intro i st hready hi
    have hstep : derivedConnectStep derivation i v st
        = { closure :=
              { ready := false,
                values := st.closure.values ++ [some v],
                dispose :=
                  st.closure.dispose ++ [st.closure.dispose.length] },
            slot := st.slot } := by
      simp [derivedConnectStep, derivedWatchCallback, hready, hi,
        setSlot_at_length]
    have h2 := ih (i + 1) (derivedConnectStep derivation i v st)
      (by rw [hstep]) (by rw [hstep]; simp [hi])
    constructor
    · rw [derivedFold, h2.1, hstep]
      simp
    · rw [derivedFold]
      exact h2.2

theorem derivedFold_dispose_length {T R : Type}
    (derivation : List (Option T) → R) :
    ∀ (vs : List T) (i : Nat) (st : DerivedInstance T R),
      (derivedFold derivation vs i st).closure.dispose.length
        = st.closure.dispose.length + vs.length := by
  intro vs
  induction vs with
  | nil =>
    intro i st
    simp [derivedFold]
  | cons v vs ih =>
    intro i st
    have hstep : (derivedConnectStep derivation i v st).closure.dispose.length
        = st.closure.dispose.length + 1 := by
      by_cases hr : st.closure.ready = true
      · simp [derivedConnectStep, derivedWatchCallback, derivedSync, hr]
      · simp [derivedConnectStep, derivedWatchCallback, derivedSync, hr]
    rw [derivedFold, ih (i + 1) (derivedConnectStep derivation i v st), hstep]
    simp only [List.length_cons]
    omega

/-- C8: the derived context's defaultValue is the derivation applied to the
upstream defaults — equivalently, a freshly attached derived provider
computes exactly that value and is Ready — and once Ready, a single upstream
change immediately re-runs the derivation on the latest known values of all
upstreams (only slot i changes; no other upstream needs to change first). -/
theorem derived_context_spec {T R : Type} (contexts : List (Ctx T))
    (derivation : List (Option T) → R) (r0 : R) (st : DerivedInstance T R)
    (hready : st.closure.ready = true) (i : Nat) (v : T) :
    (derivedConnectedCallback derivation
        (contexts.map (fun c => c.defaultValue)) ⟨⟨false, [], []⟩, r0⟩).slot
      = derivedDefaultValue contexts derivation
    ∧ (derivedConnectedCallback derivation
        (contexts.map (fun c => c.defaultValue))
        ⟨⟨false, [], []⟩, r0⟩).closure.ready = true
    ∧ (derivedWatchCallback derivation i v st).slot
        = derivation (setSlot st.closure.values i v)
    ∧ (derivedWatchCallback derivation i v st).closure.values
        = setSlot st.closure.values i v := by
  have hfold := derivedFold_start_at_length derivation
    (contexts.map (fun c => c.defaultValue)) 0 ⟨⟨false, [], []⟩, r0⟩ rfl rfl
  refine ⟨?_, rfl, ?_, ?_⟩
  · have hv : (derivedConnectedCallback derivation
        (contexts.map (fun c => c.defaultValue)) ⟨⟨false, [], []⟩, r0⟩).slot
      = derivation (derivedFold derivation
          (contexts.map (fun c => c.defaultValue)) 0
          ⟨⟨false, [], []⟩, r0⟩).closure.values := rfl
    rw [hv, hfold.1]
    simp only [List.nil_append, List.map_map, derivedDefaultValue]
    rfl
  · simp [derivedWatchCallback, derivedSync, hready]
  · simp [derivedWatchCallback, derivedSync, hready]

/-- C8 (witness): the spec's example — upstream defaults "x" and 1 give the
derived default "x1"; with the derived provider Ready, A updating to "y"
immediately yields "y1" without B changing. -/
theorem derived_context_spec_witness :
    (derivedConnectedCallback derivationEx
        (([⟨JVal.s "x"⟩, ⟨JVal.n 1⟩] : List (Ctx JVal)).map
          (fun c => c.defaultValue))
        ⟨⟨false, [], []⟩, JVal.undef⟩).slot
      = derivedDefaultValue [⟨JVal.s "x"⟩, ⟨JVal.n 1⟩] derivationEx
    ∧ derivedDefaultValue ([⟨JVal.s "x"⟩, ⟨JVal.n 1⟩] : List (Ctx JVal))
        derivationEx = JVal.s "x1"
    ∧ (derivedWatchCallback derivationEx 0 (JVal.s "y")
        ⟨⟨true, [some (JVal.s "x"), some (JVal.n 1)], [0, 1]⟩,
          JVal.s "x1"⟩).slot
      = derivationEx
          (setSlot [some (JVal.s "x"), some (JVal.n 1)] 0 (JVal.s "y"))
    ∧ derivationEx (setSlot [some (JVal.s "x"), some (JVal.n 1)] 0
        (JVal.s "y")) = JVal.s "y1" :=
  ⟨(derived_context_spec [⟨JVal.s "x"⟩, ⟨JVal.n 1⟩] derivationEx JVal.undef
      ⟨⟨true, [some (JVal.s "x"), some (JVal.n 1)], [0, 1]⟩, JVal.s "x1"⟩
      rfl 0 (JVal.s "y")).1,
   by decide,
   (derived_context_spec [⟨JVal.s "x"⟩, ⟨JVal.n 1⟩] derivationEx JVal.undef
      ⟨⟨true, [some (JVal.s "x"), some (JVal.n 1)], [0, 1]⟩, JVal.s "x1"⟩
      rfl 0 (JVal.s "y")).2.2.1,
   by decide⟩

/-- C10: the per-decoration closure state survives detach — `dispose` (and
the `values` slots) are never cleared by the derived disconnectedCallback —
so a second attach cycle of the same decorated type appends its fresh watch
unsubscribers alongside the stale ones: attach, detach, attach leaves
2 * N entries in `dispose` for N upstream contexts. -/
theorem derived_dispose_accumulates {T R : Type}
    (derivation : List (Option T) → R) (initials : List T) (r0 : R)
    (st : DerivedInstance T R) :
    (derivedDisconnectedCallback st).closure.dispose = st.closure.dispose
    ∧ (derivedDisconnectedCallback st).closure.values = st.closure.values
    ∧ (derivedConnectedCallback derivation initials
        (derivedDisconnectedCallback
          (derivedConnectedCallback derivation initials
            ⟨⟨false, [], []⟩, r0⟩))).closure.dispose.length
      = 2 * initials.length := by
  refine ⟨rfl, rfl, ?_⟩
  have h1 : ∀ (s : DerivedInstance T R),
      (derivedConnectedCallback derivation initials s).closure.dispose.length
        = s.closure.dispose.length + initials.length := by
    intro s
    show (derivedFold derivation initials 0 s).closure.dispose.length = _
    exact derivedFold_dispose_length derivation initials 0 s
  rw [h1]
  have h2 : (derivedDisconnectedCallback
      (derivedConnectedCallback derivation initials
        ⟨⟨false, [], []⟩, r0⟩)).closure.dispose.length = initials.length := by
    show (derivedConnectedCallback derivation initials
      ⟨⟨false, [], []⟩, r0⟩).closure.dispose.length = _
    rw [h1]
    simp
  rw [h2]
  omega

end WcContext

